import Mathlib

/-!
Verification of the rating-tool logic in `rater_app.py`.

The program is a single-page annotation tool: an annotator rates six
model-generated corrections of a sentence and the results are upserted into
remote spreadsheet tables keyed by `(submission_id, user)`.  This file gives a
shallow embedding of the data model (pandas-style tables whose cells are
strings, integers or NaN) and of the functions `get_nemotron_row_id`,
`get_saved_rating`, `get_saved_correction`, `safe_save_to_sheet` and the
save-button handler, and proves properties of them.
-/

set_option autoImplicit false

namespace RaterApp

/-- A spreadsheet cell as pandas sees it: a string, an integer, or NaN
(the null placeholder used for missing values). -/
inductive Cell where
  | s (v : String)
  | i (v : Int)
  | nan
deriving DecidableEq, Repr

/-- Python `str` applied to a cell, as `astype(str)` does column-wise:
a string is itself, an integer prints in decimal, NaN prints as "nan". -/
def pyStr : Cell → String
  | .s v => v
  | .i v => Int.repr v
  | .nan => "nan"

/-- The pandas comparison `cell == u` against a Python string `u`:
true only when the cell is the equal string (an integer or NaN cell
never equals a string). -/
def cellEqStr (c : Cell) (u : String) : Bool :=
  match c with
  | .s v => v == u
  | _ => false

/-- Decimal value of a list of digit characters, as Python reads them. -/
def digitsToNat (ds : List Char) : Nat :=
  ds.foldl (fun n c => n * 10 + (c.toNat - 48)) 0

/-- Python `int` applied to a string: an optional minus sign followed by one
or more decimal digits parses; anything else raises (here: none). -/
def parseInt (s : String) : Option Int :=
  match s.data with
  | [] => none
  | '-' :: ds =>
    if ds ≠ [] ∧ ds.all (fun c => c.isDigit) then some (-(digitsToNat ds : Int)) else none
  | ds =>
    if ds.all (fun c => c.isDigit) then some ((digitsToNat ds : Int)) else none

/-- Python `int(cell)` under `try/except`: an integer converts to itself,
a string converts when it parses as an integer, NaN fails. -/
def cellToInt : Cell → Option Int
  | .i v => some v
  | .s v => parseInt v
  | .nan => none

/-- Whether the cell is a string. -/
def Cell.isStr : Cell → Bool
  | .s _ => true
  | _ => false

/-- One table row: an association list from column name to cell.  A column
of the table that has no entry in the row holds NaN (`getCell` defaults). -/
abbrev Row : Type := List (String × Cell)

/-- Value of a row at a column; NaN when the row carries no entry there
(pandas fills missing cells with NaN). -/
def getCell (r : Row) (c : String) : Cell :=
  match r with
  | [] => Cell.nan
  | (k, v) :: rest => if k = c then v else getCell rest c

/-- Restriction of a row to a set of columns, as column selection
`df[cs]` does row-wise: entries of other columns are dropped. -/
def restrictRow (cs : List String) (r : Row) : Row :=
  r.filter (fun p => decide (p.1 ∈ cs))

/-- A pandas DataFrame: an ordered list of column names and a list of rows. -/
structure DF where
  cols : List String
  rows : List Row
deriving DecidableEq, Repr

/-- Pandas `df.empty`: true when either axis has length zero. -/
def DF.isEmpty (d : DF) : Bool :=
  d.rows.isEmpty || d.cols.isEmpty

/-- Column selection `df[cs]`: the columns become `cs` and each row is
restricted to them. -/
def DF.select (d : DF) (cs : List String) : DF :=
  ⟨cs, d.rows.map (restrictRow cs)⟩

/-- Row-wise concatenation `pd.concat([a, b], ignore_index=True)`: the columns
are the union (in order of first appearance) and the rows of `a` come first.
Cells of a row for columns it lacks are NaN (via `getCell`). -/
def DF.concat (a b : DF) : DF :=
  ⟨a.cols ++ b.cols.filter (fun c => decide (c ∉ a.cols)), a.rows ++ b.rows⟩

/-- The empty DataFrame `pd.DataFrame()`. -/
def emptyDF : DF := ⟨[], []⟩

/-- The client-side schema allow-list of `safe_save_to_sheet`. -/
def allowed_cols : List String := ["submission_id", "user", "rating", "user_corrected"]

/-- The deletion mask of `safe_save_to_sheet` (and the lookup mask of
`get_saved_rating` / `get_saved_correction`), for one row:
`(df["submission_id"].astype(str) == str(sub_id)) & (df["user"] == username)`.
The `submission_id` side is coerced to string on both sides; the `user`
side is compared without coercion. -/
def rowMatchesKey (r : Row) (sub_id : Cell) (username : String) : Bool :=
  (pyStr (getCell r "submission_id") == pyStr sub_id)
    && cellEqStr (getCell r "user") username

/-- The columns of a read table that survive the allow-list filter
(`valid_cols` in `safe_save_to_sheet`). -/
def validOf (d : DF) : List String :=
  d.cols.filter (fun c => decide (c ∈ allowed_cols))

/-- Step 2 of `safe_save_to_sheet` on a non-empty read table: keep only the
allowed columns, then, when both key columns are present, drop the rows that
match the `(submission_id, user)` key (the modified `current_sheet_df`). -/
def cleanOld (current : DF) (sub_id : Cell) (username : String) : DF :=
  let cur := current.select (validOf current)
  if "submission_id" ∈ validOf current ∧ "user" ∈ validOf current then
    ⟨cur.cols, cur.rows.filter (fun r => !(rowMatchesKey r sub_id username))⟩
  else cur

/-- The pure core of `safe_save_to_sheet` from `rater_app.py`: `current` is the
freshly read table (the empty DataFrame when the sheet is absent or the read
failed) and the returned table is what `conn.update` writes back wholesale.
If the read table is non-empty, its columns are filtered to the allow-list;
when both key columns are present, rows matching the `(submission_id, user)`
key are removed; the new entry is stacked on top. -/
def safe_save_to_sheet (current new_entry : DF) (sub_id : Cell) (username : String) : DF :=
  if current.isEmpty then new_entry
  else DF.concat new_entry (cleanOld current sub_id username)

/-- `get_saved_rating` from `rater_app.py`: look up the session table, and when
it is non-empty and has both key columns, take the first row matching the
`(submission_id, user)` key and try `int(row["rating"])`; a missing `rating`
column (KeyError) or a failed conversion yields `none`. -/
def get_saved_rating (df? : Option DF) (sub_id : Cell) (username : String) : Option Int :=
  match df? with
  | none => none
  | some df =>
    if df.isEmpty then none
    else if "submission_id" ∈ df.cols ∧ "user" ∈ df.cols then
      match df.rows.filter (fun r => rowMatchesKey r sub_id username) with
      | [] => none
      | r :: _ => if "rating" ∈ df.cols then cellToInt (getCell r "rating") else none
    else none

/-- `get_saved_correction` from `rater_app.py`: like `get_saved_rating` but it
returns `str(row["user_corrected"])` of the first matching row; a missing
`user_corrected` column (KeyError) yields the empty string. -/
def get_saved_correction (df? : Option DF) (sub_id : Cell) (username : String) : String :=
  match df? with
  | none => ""
  | some df =>
    if df.isEmpty then ""
    else if "submission_id" ∈ df.cols ∧ "user" ∈ df.cols then
      match df.rows.filter (fun r => rowMatchesKey r sub_id username) with
      | [] => ""
      | r :: _ =>
        if "user_corrected" ∈ df.cols then pyStr (getCell r "user_corrected") else ""
    else ""

/-- One row of the master table: source sentence, model-variant tag, output. -/
structure MasterRow where
  incorrect : String
  id : String
  corrected : String
deriving DecidableEq, Repr

/-- `get_nemotron_row_id` from `rater_app.py`: the position of the first row of
the master table whose `incorrect` equals the current sentence and whose `id`
is "B" (the nemotron reference variant), offset by 2; the string "Unknown"
when no such row exists. -/
def get_nemotron_row_id (master : List MasterRow) (current_incorrect : String) : Cell :=
  match master.findIdx? (fun r => r.incorrect == current_incorrect && r.id == "B") with
  | some i => Cell.i ((i : Int) + 2)
  | none => Cell.s "Unknown"

/-- The `submission_id` cell of a new entry built by the save handler:
`int(nem_row_id) if nem_row_id != "Unknown" else 0` (where `nem_row_id` is
already an integer whenever it is not the sentinel). -/
def entry_submission_id (nem_row_id : Cell) : Cell :=
  if nem_row_id = Cell.s "Unknown" then Cell.i 0 else nem_row_id

/-- The single-row DataFrame the save loop builds for one model variant. -/
def mkRatingEntry (nem_row_id : Cell) (username : String) (val : Int) : DF :=
  ⟨["submission_id", "user", "rating"],
   [[("submission_id", entry_submission_id nem_row_id),
     ("user", Cell.s username),
     ("rating", Cell.i val)]]⟩

/-- The single-row DataFrame the save handler builds for a manual correction. -/
def mkCorrectionEntry (nem_row_id : Cell) (username : String) (fix : String) : DF :=
  ⟨["submission_id", "user", "user_corrected"],
   [[("submission_id", entry_submission_id nem_row_id),
     ("user", Cell.s username),
     ("user_corrected", Cell.s fix)]]⟩

/-- The sorted model variant identifiers iterated by the save loop. -/
def model_ids : List String := ["A", "B", "C", "D", "E", "F"]

/-- One iteration of the save loop for variant `m`: when a rating is selected
for `m`, the table of that variant is read and rewritten through
`safe_save_to_sheet` and `m` is appended to the trace of touched sheets;
otherwise nothing happens. -/
def save_step (sel : String → Option Int) (nem_row_id : Cell) (username : String)
    (acc : (String → DF) × List String) (m : String) : (String → DF) × List String :=
  match sel m with
  | some v =>
    let newdf := safe_save_to_sheet (acc.1 m) (mkRatingEntry nem_row_id username v)
      nem_row_id username
    (fun k => if k = m then newdf else acc.1 k, acc.2 ++ [m])
  | none => acc

/-- The save-button handler: for each variant with a selected rating it reads
and rewrites the table of that variant through `safe_save_to_sheet`; when the
manual fix text is non-empty it does the same for the corrections table.  The
store maps a sheet key (a variant id or "corrections") to its table; the
second component lists the sheet keys fetched-and-written, in order. -/
def save_button_handler (store : String → DF) (sel : String → Option Int)
    (manual_fix : String) (nem_row_id : Cell) (username : String) :
    (String → DF) × List String :=
  let r := model_ids.foldl (save_step sel nem_row_id username) (store, [])
  if manual_fix = "" then r
  else
    let newdf := safe_save_to_sheet (r.1 "corrections")
      (mkCorrectionEntry nem_row_id username manual_fix) nem_row_id username
    (fun k => if k = "corrections" then newdf else r.1 k, r.2 ++ ["corrections"])

/-- Modelled from the spec (section 4.2, steps 2 to 4) as a reading of the
upsert contract: an empty or absent table becomes the new row alone; otherwise
the rows of the read table, restricted to the allowed columns, that do not
match the `(submission_id, user)` key are kept below the new row, without the
column-presence guard of the implementation, and the result is the whole
written table. -/
def upsert_spec (current new_entry : DF) (sub_id : Cell) (username : String) : DF :=
  if current.isEmpty then new_entry
  else
    DF.concat new_entry
      ⟨validOf current,
        (current.rows.map (restrictRow (validOf current))).filter
          (fun r => !(rowMatchesKey r sub_id username))⟩

/-- Modelled from the spec sentence behind claim C3: the removal mask with BOTH
key columns coerced to strings on both sides of the comparison (the
implementation coerces only the `submission_id` side). -/
def rowMatchesKeyBothStr (r : Row) (sub_id : Cell) (username : String) : Bool :=
  (pyStr (getCell r "submission_id") == pyStr sub_id)
    && (pyStr (getCell r "user") == username)

/-- Variant of `safe_save_to_sheet` whose removal step uses the both-sides
string coercion described by the spec (`rowMatchesKeyBothStr`). -/
def cleanOldBothStr (current : DF) (sub_id : Cell) (username : String) : DF :=
  let cur := current.select (validOf current)
  if "submission_id" ∈ validOf current ∧ "user" ∈ validOf current then
    ⟨cur.cols, cur.rows.filter (fun r => !(rowMatchesKeyBothStr r sub_id username))⟩
  else cur

/-- The both-sides-coerced variant of the save, modelled from the spec words
of claim C3. -/
def safe_save_both_str (current new_entry : DF) (sub_id : Cell) (username : String) : DF :=
  if current.isEmpty then new_entry
  else DF.concat new_entry (cleanOldBothStr current sub_id username)

/-- Modelled from the spec words of claim C7: a missing key column of the
fetched table is synthesized (appended with all cells null, which `getCell`
renders as NaN) before use, and the key-based removal is then always
performed instead of being skipped. -/
def safe_save_synth (current new_entry : DF) (sub_id : Cell) (username : String) : DF :=
  if current.isEmpty then new_entry
  else
    let valid_cols := validOf current
    let cols2 := valid_cols ++ ["submission_id", "user"].filter (fun c => decide (c ∉ valid_cols))
    DF.concat new_entry
      ⟨cols2,
        (current.rows.map (restrictRow valid_cols)).filter
          (fun r => !(rowMatchesKey r sub_id username))⟩

/-! ### Helper lemmas about decimal representations -/

theorem digitChar_ne_n (n : Nat) : Nat.digitChar n ≠ 'n' := by
  rcases Nat.lt_or_ge n 16 with h | h
  · interval_cases n <;> decide
  · have h2 : Nat.digitChar n = '*' := by
      unfold Nat.digitChar
      repeat rw [if_neg (by omega)]
    rw [h2]; decide

theorem mem_toDigitsCore (b fuel : Nat) :
    ∀ (n : Nat) (ds : List Char) (c : Char),
      c ∈ Nat.toDigitsCore b fuel n ds → c ∈ ds ∨ ∃ m, c = Nat.digitChar m := by
  induction fuel with
  | zero => intro n ds c h; exact Or.inl h
  | succ fuel ih =>
    intro n ds c h
    rw [Nat.toDigitsCore] at h
    split at h
    · rcases List.mem_cons.mp h with h1 | h1
      · exact Or.inr ⟨n % b, h1⟩
      · exact Or.inl h1
    · rcases ih (n / b) (Nat.digitChar (n % b) :: ds) c h with h1 | h1
      · rcases List.mem_cons.mp h1 with h2 | h2
        · exact Or.inr ⟨n % b, h2⟩
        · exact Or.inl h2
      · exact Or.inr h1

theorem nat_repr_ne_nan (n : Nat) : Nat.repr n ≠ "nan" := by
  intro h
  have hd : Nat.toDigits 10 n = ['n', 'a', 'n'] := congrArg String.data h
  have hn : ('n' : Char) ∈ Nat.toDigitsCore 10 (n + 1) n [] := by
    show ('n' : Char) ∈ Nat.toDigits 10 n
    rw [hd]; exact List.mem_cons_self _ _
  rcases mem_toDigitsCore 10 (n + 1) n [] 'n' hn with h1 | ⟨m, h2⟩
  · simp at h1
  · exact digitChar_ne_n m h2.symm

theorem int_repr_ne_nan (n : Int) : Int.repr n ≠ "nan" := by
  cases n with
  | ofNat m => exact nat_repr_ne_nan m
  | negSucc m =>
    intro h
    have hd : ('-' : Char) :: (Nat.repr (m + 1)).data = ['n', 'a', 'n'] :=
      congrArg String.data h
    have h1 : ('-' : Char) = 'n' := (List.cons_eq_cons.mp hd).1
    exact absurd h1 (by decide)

/-- The decimal string of an integer is never the string "nan". -/
theorem pyStr_int_ne_nan (n : Int) : pyStr (Cell.i n) ≠ "nan" :=
  int_repr_ne_nan n

/-! ### Helper lemmas about rows and tables -/

theorem getCell_restrictRow (cs : List String) (r : Row) (c : String) :
    getCell (restrictRow cs r) c = if c ∈ cs then getCell r c else Cell.nan := by
  induction r with
  | nil => simp [restrictRow, getCell]
  | cons p rest ih =>
    obtain ⟨k, v⟩ := p
    simp only [restrictRow, List.filter_cons] at ih ⊢
    by_cases hk : k ∈ cs
    · by_cases hkc : k = c
      · subst hkc
        simp [hk, getCell]
      · simp [hk, getCell, hkc, ih]
    · by_cases hkc : k = c
      · subst hkc
        simp [hk, getCell, ih]
      · simp [hk, getCell, hkc, ih]

theorem entry_keys_restrictRow (cs : List String) (r : Row) :
    ∀ p ∈ restrictRow cs r, p.1 ∈ cs := by
  intro p hp
  simpa using (List.mem_filter.mp hp).2

theorem restrictRow_eq_self (cs : List String) (r : Row)
    (h : ∀ p ∈ r, p.1 ∈ cs) : restrictRow cs r = r :=
  List.filter_eq_self.mpr (fun p hp => by simpa using h p hp)

theorem rowMatchesKey_restrict_missing (cs : List String) (r : Row) (sub : Cell) (user : String)
    (hnan : pyStr sub ≠ "nan")
    (h : "submission_id" ∉ cs ∨ "user" ∉ cs) :
    rowMatchesKey (restrictRow cs r) sub user = false := by
  rcases h with h | h
  · unfold rowMatchesKey
    rw [getCell_restrictRow, if_neg h]
    have hb : (pyStr Cell.nan == pyStr sub) = false := by
      simp only [pyStr, beq_eq_false_iff_ne, ne_eq]
      exact fun hc => hnan hc.symm
    simp [hb]
  · unfold rowMatchesKey
    rw [getCell_restrictRow cs r "user", if_neg h]
    simp [cellEqStr]

theorem rowMatchesKey_restrict (cs : List String) (r : Row) (sub : Cell) (user : String)
    (hnan : pyStr sub ≠ "nan")
    (h : rowMatchesKey (restrictRow cs r) sub user = true) :
    rowMatchesKey r sub user = true := by
  by_cases h1 : "submission_id" ∈ cs
  · by_cases h2 : "user" ∈ cs
    · unfold rowMatchesKey at h ⊢
      rwa [getCell_restrictRow, getCell_restrictRow, if_pos h1, if_pos h2] at h
    · rw [rowMatchesKey_restrict_missing cs r sub user hnan (Or.inr h2)] at h
      exact absurd h (by simp)
  · rw [rowMatchesKey_restrict_missing cs r sub user hnan (Or.inl h1)] at h
    exact absurd h (by simp)

theorem validOf_sub_allowed (d : DF) :
    ∀ c ∈ validOf d, c ∈ allowed_cols := by
  intro c hc
  simpa using (List.mem_filter.mp hc).2

theorem cleanOld_cols (cur : DF) (sub : Cell) (u : String) :
    (cleanOld cur sub u).cols = validOf cur := by
  unfold cleanOld
  split <;> rfl

theorem mem_cleanOld_rows (cur : DF) (sub : Cell) (u : String) (r : Row)
    (h : r ∈ (cleanOld cur sub u).rows) :
    ∃ r0 ∈ cur.rows, r = restrictRow (validOf cur) r0 := by
  unfold cleanOld at h
  split at h
  · rcases List.mem_filter.mp h with ⟨hm, _⟩
    rcases List.mem_map.mp hm with ⟨r0, hr0, heq⟩
    exact ⟨r0, hr0, heq.symm⟩
  · rcases List.mem_map.mp h with ⟨r0, hr0, heq⟩
    exact ⟨r0, hr0, heq.symm⟩

theorem cleanOld_not_match (cur : DF) (sub : Cell) (u : String)
    (hnan : pyStr sub ≠ "nan") :
    ∀ r ∈ (cleanOld cur sub u).rows, rowMatchesKey r sub u = false := by
  intro r h
  unfold cleanOld at h
  split at h
  · rcases List.mem_filter.mp h with ⟨_, hf⟩
    simpa using hf
  · rename_i hcond
    rcases List.mem_map.mp h with ⟨r0, _, heq⟩
    subst heq
    exact rowMatchesKey_restrict_missing _ _ _ _ hnan (not_and_or.mp hcond)

theorem cleanOld_entry_keys (cur : DF) (sub : Cell) (u : String) (r : Row)
    (h : r ∈ (cleanOld cur sub u).rows) :
    ∀ p ∈ r, p.1 ∈ validOf cur := by
  rcases mem_cleanOld_rows cur sub u r h with ⟨r0, _, heq⟩
  subst heq
  exact entry_keys_restrictRow _ _

/-! ### Facts about the entries built by the save loop -/

theorem entry_submission_id_int (n : Int) :
    entry_submission_id (Cell.i n) = Cell.i n := by
  simp [entry_submission_id]

theorem getCell_ratingRow_sub (a b c : Cell) :
    getCell [("submission_id", a), ("user", b), ("rating", c)] "submission_id" = a := rfl

theorem getCell_ratingRow_user (a b c : Cell) :
    getCell [("submission_id", a), ("user", b), ("rating", c)] "user" = b := rfl

theorem getCell_ratingRow_rating (a b c : Cell) :
    getCell [("submission_id", a), ("user", b), ("rating", c)] "rating" = c := rfl

theorem rowMatchesKey_ratingRow_self (n : Int) (u : String) (v : Int) :
    rowMatchesKey [("submission_id", Cell.i n), ("user", Cell.s u), ("rating", Cell.i v)]
      (Cell.i n) u = true := by
  rw [rowMatchesKey, getCell_ratingRow_sub, getCell_ratingRow_user]
  simp [cellEqStr]

theorem rowMatchesKey_ratingRow_other (n : Int) (u y : String) (v : Int) (h : y ≠ u) :
    rowMatchesKey [("submission_id", Cell.i n), ("user", Cell.s u), ("rating", Cell.i v)]
      (Cell.i n) y = false := by
  rw [rowMatchesKey, getCell_ratingRow_user]
  simp only [cellEqStr, Bool.and_eq_false_iff]
  right
  simpa using fun hc => h hc.symm

theorem mkRatingEntry_rows (n : Int) (u : String) (v : Int) :
    (mkRatingEntry (Cell.i n) u v).rows
      = [[("submission_id", Cell.i n), ("user", Cell.s u), ("rating", Cell.i v)]] := by
  rw [mkRatingEntry, entry_submission_id_int]

theorem mkRatingEntry_not_isEmpty (c : Cell) (u : String) (v : Int) :
    (mkRatingEntry c u v).isEmpty = false := rfl

theorem mkRatingEntry_sentinel_rows (u : String) (v : Int) :
    (mkRatingEntry (Cell.s "Unknown") u v).rows
      = [[("submission_id", Cell.i 0), ("user", Cell.s u), ("rating", Cell.i v)]] := rfl

theorem concat_rows (a b : DF) : (DF.concat a b).rows = a.rows ++ b.rows := rfl

theorem concat_cols (a b : DF) :
    (DF.concat a b).cols = a.cols ++ b.cols.filter (fun c => decide (c ∉ a.cols)) := rfl

example :
    safe_save_to_sheet emptyDF (mkRatingEntry (Cell.i 5) "alice" 7) (Cell.i 5) "alice"
      = mkRatingEntry (Cell.i 5) "alice" 7 := by decide

example :
    get_saved_rating
      (some (safe_save_to_sheet emptyDF (mkRatingEntry (Cell.i 5) "alice" 7) (Cell.i 5) "alice"))
      (Cell.i 5) "alice" = some 7 := by decide

example :
    get_nemotron_row_id [⟨"x", "A", "ca"⟩, ⟨"x", "B", "cb"⟩] "x" = Cell.i 3 := by decide

/-! ### Structural lemmas about `safe_save_to_sheet` -/

theorem safe_save_eq_of_empty (cur new : DF) (sub : Cell) (u : String)
    (h : cur.isEmpty = true) : safe_save_to_sheet cur new sub u = new := by
  unfold safe_save_to_sheet
  rw [if_pos h]

theorem safe_save_eq_of_nonempty (cur new : DF) (sub : Cell) (u : String)
    (h : cur.isEmpty = false) :
    safe_save_to_sheet cur new sub u = DF.concat new (cleanOld cur sub u) := by
  unfold safe_save_to_sheet
  rw [if_neg (by simp [h])]

theorem save_rows_cases (cur new : DF) (sub : Cell) (u : String) :
    (safe_save_to_sheet cur new sub u).rows = new.rows
    ∨ (safe_save_to_sheet cur new sub u).rows
        = new.rows ++ (cleanOld cur sub u).rows := by
  unfold safe_save_to_sheet
  split
  · exact Or.inl rfl
  · exact Or.inr rfl

theorem validOf_eq_cols_of_allowed (d : DF) (h : ∀ c ∈ d.cols, c ∈ allowed_cols) :
    validOf d = d.cols := by
  unfold validOf
  exact List.filter_eq_self.mpr (fun c hc => by simpa using h c hc)

/-! ### Claim C1 -/

/-- Claim C1, counterexample: in the sentinel case the saved row is keyed by
`submission_id` 0, so after a successful save on an empty table the written
table holds NO row whose `(submission_id, user)` key matches the key of the triple
(the sentinel "Unknown" with annotator "alice") — not exactly one. -/
theorem claim_C1_counterexample :
    ((safe_save_to_sheet emptyDF (mkRatingEntry (Cell.s "Unknown") "alice" 7)
        (Cell.s "Unknown") "alice").rows.countP
      (fun r => rowMatchesKey r (Cell.s "Unknown") "alice")) ≠ 1 := by decide

/-- Claim C1 as amended: for every read table, whenever the submission
identifier is a genuine integer row id (not the sentinel), a successful
`safe_save_to_sheet` of the rating entry the save loop builds leaves exactly
one row in the written table whose `(submission_id, user)` key matches the
`(identifier, annotator)` key. -/
theorem claim_C1_exactly_one (cur : DF) (n : Int) (u : String) (v : Int) :
    ((safe_save_to_sheet cur (mkRatingEntry (Cell.i n) u v) (Cell.i n) u).rows.countP
      (fun r => rowMatchesKey r (Cell.i n) u)) = 1 := by
  rcases save_rows_cases cur (mkRatingEntry (Cell.i n) u v) (Cell.i n) u with h | h <;> rw [h]
  · rw [mkRatingEntry_rows]
    simp [List.countP_cons, rowMatchesKey_ratingRow_self]
  · rw [mkRatingEntry_rows, List.countP_append]
    have h0 : ((cleanOld cur (Cell.i n) u).rows.countP
        (fun r => rowMatchesKey r (Cell.i n) u)) = 0 :=
      List.countP_eq_zero.mpr (fun r hr => by
        simp [cleanOld_not_match cur (Cell.i n) u (pyStr_int_ne_nan n) r hr])
    rw [h0]
    simp [List.countP_cons, rowMatchesKey_ratingRow_self]

/-! ### Claim C9 -/

/-- Claim C9: when the reference row is missing the new row carries
`submission_id` 0 while the deletion mask compares against the string
"Unknown"; the mask therefore never hits a previously saved sentinel row
(first conjunct), and two sentinel saves in a row leave at least two live
rows keyed `(0, annotator)` in the written table (second conjunct). -/
theorem claim_C9_sentinel_accumulates (cur : DF) (user : String) (v1 v2 : Int) :
    rowMatchesKey [("submission_id", Cell.i 0), ("user", Cell.s user), ("rating", Cell.i v1)]
        (Cell.s "Unknown") user = false
    ∧ 2 ≤ ((safe_save_to_sheet
          (safe_save_to_sheet cur (mkRatingEntry (Cell.s "Unknown") user v1)
            (Cell.s "Unknown") user)
          (mkRatingEntry (Cell.s "Unknown") user v2) (Cell.s "Unknown") user).rows.countP
        (fun r => rowMatchesKey r (Cell.i 0) user)) := by
  constructor
  · rfl
  · have hrows1 : ∃ t, (safe_save_to_sheet cur (mkRatingEntry (Cell.s "Unknown") user v1)
        (Cell.s "Unknown") user).rows
        = [("submission_id", Cell.i 0), ("user", Cell.s user), ("rating", Cell.i v1)] :: t := by
      unfold safe_save_to_sheet
      split
      · exact ⟨[], rfl⟩
      · exact ⟨(cleanOld cur (Cell.s "Unknown") user).rows, rfl⟩
    have hcols1 : ∃ t, (safe_save_to_sheet cur (mkRatingEntry (Cell.s "Unknown") user v1)
        (Cell.s "Unknown") user).cols = "submission_id" :: "user" :: "rating" :: t := by
      unfold safe_save_to_sheet
      split
      · exact ⟨[], rfl⟩
      · exact ⟨_, rfl⟩
    obtain ⟨rt, hrows⟩ := hrows1
    obtain ⟨ct, hcols⟩ := hcols1
    have hne : (safe_save_to_sheet cur (mkRatingEntry (Cell.s "Unknown") user v1)
        (Cell.s "Unknown") user).isEmpty = false := by
      unfold DF.isEmpty
      rw [hrows, hcols]
      rfl
    rw [safe_save_eq_of_nonempty _ _ _ _ hne]
    have hsubm : "submission_id" ∈ validOf (safe_save_to_sheet cur
        (mkRatingEntry (Cell.s "Unknown") user v1) (Cell.s "Unknown") user) :=
      List.mem_filter.mpr ⟨by rw [hcols]; exact List.mem_cons_self _ _, by decide⟩
    have huser : "user" ∈ validOf (safe_save_to_sheet cur
        (mkRatingEntry (Cell.s "Unknown") user v1) (Cell.s "Unknown") user) :=
      List.mem_filter.mpr ⟨by
        rw [hcols]
        exact List.mem_cons_of_mem _ (List.mem_cons_self _ _), by decide⟩
    have hrating : "rating" ∈ validOf (safe_save_to_sheet cur
        (mkRatingEntry (Cell.s "Unknown") user v1) (Cell.s "Unknown") user) :=
      List.mem_filter.mpr ⟨by
        rw [hcols]
        exact List.mem_cons_of_mem _ (List.mem_cons_of_mem _ (List.mem_cons_self _ _)),
        by decide⟩
    have hcleanrows : (cleanOld (safe_save_to_sheet cur
          (mkRatingEntry (Cell.s "Unknown") user v1) (Cell.s "Unknown") user)
        (Cell.s "Unknown") user).rows
        = ((safe_save_to_sheet cur (mkRatingEntry (Cell.s "Unknown") user v1)
            (Cell.s "Unknown") user).rows.map (restrictRow (validOf (safe_save_to_sheet cur
              (mkRatingEntry (Cell.s "Unknown") user v1) (Cell.s "Unknown") user)))).filter
          (fun r => !(rowMatchesKey r (Cell.s "Unknown") user)) := by
      simp only [cleanOld, DF.select]
      rw [if_pos ⟨hsubm, huser⟩]
    have hrestrict1 : restrictRow (validOf (safe_save_to_sheet cur
          (mkRatingEntry (Cell.s "Unknown") user v1) (Cell.s "Unknown") user))
        [("submission_id", Cell.i 0), ("user", Cell.s user), ("rating", Cell.i v1)]
        = [("submission_id", Cell.i 0), ("user", Cell.s user), ("rating", Cell.i v1)] := by
      refine restrictRow_eq_self _ _ ?hmem
      intro p hp
      rcases List.mem_cons.mp hp with h1 | hp2
      · subst h1; exact hsubm
      rcases List.mem_cons.mp hp2 with h1 | hp3
      · subst h1; exact huser
      rcases List.mem_cons.mp hp3 with h1 | hp4
      · subst h1; exact hrating
      · simp at hp4
    rw [concat_rows, mkRatingEntry_sentinel_rows, List.singleton_append,
      hcleanrows, hrows, List.map_cons, hrestrict1,
      List.filter_cons_of_pos (by rfl)]
    simp only [List.countP_cons, rowMatchesKey_ratingRow_self, if_true]
    omega

/-! ### Claim C4 -/

theorem mkRatingEntry_cols (x : Cell) (u : String) (v : Int) :
    (mkRatingEntry x u v).cols = ["submission_id", "user", "rating"] := rfl

theorem mkRatingEntry_cols_allowed (x : Cell) (u : String) (v : Int) :
    ∀ c ∈ (mkRatingEntry x u v).cols, c ∈ allowed_cols := by
  intro c hc
  rw [mkRatingEntry_cols] at hc
  rcases List.mem_cons.mp hc with h | hc
  · subst h; decide
  rcases List.mem_cons.mp hc with h | hc
  · subst h; decide
  rcases List.mem_cons.mp hc with h | hc
  · subst h; decide
  · simp at hc

/-- Absorption: saving the rating entry for key `(n, u)` into a table whose
first row is that very entry, whose remaining rows do not match the key and
are already restricted to its columns, and whose columns are the entry
columns followed by further allowed columns, returns the table unchanged. -/
theorem save_absorb (scols : List String) (srows : List Row) (n : Int) (u : String) (v : Int)
    (Y : List String) (T : List Row)
    (hcols : scols = "submission_id" :: "user" :: "rating" :: Y)
    (hY : ∀ c ∈ Y, c ∉ (["submission_id", "user", "rating"] : List String))
    (hA : ∀ c ∈ scols, c ∈ allowed_cols)
    (hrows : srows
      = [("submission_id", Cell.i n), ("user", Cell.s u), ("rating", Cell.i v)] :: T)
    (hT : ∀ r ∈ T, rowMatchesKey r (Cell.i n) u = false ∧ restrictRow scols r = r) :
    safe_save_to_sheet ⟨scols, srows⟩ (mkRatingEntry (Cell.i n) u v) (Cell.i n) u
      = ⟨scols, srows⟩ := by
  subst hcols
  subst hrows
  have hne : (DF.mk ("submission_id" :: "user" :: "rating" :: Y)
      ([("submission_id", Cell.i n), ("user", Cell.s u), ("rating", Cell.i v)] :: T)).isEmpty
      = false := rfl
  rw [safe_save_eq_of_nonempty _ _ _ _ hne]
  have hvalid : validOf (DF.mk ("submission_id" :: "user" :: "rating" :: Y)
      ([("submission_id", Cell.i n), ("user", Cell.s u), ("rating", Cell.i v)] :: T))
      = "submission_id" :: "user" :: "rating" :: Y :=
    validOf_eq_cols_of_allowed _ hA
  have hsubm : "submission_id" ∈ ("submission_id" :: "user" :: "rating" :: Y) :=
    List.mem_cons_self _ _
  have huser : "user" ∈ ("submission_id" :: "user" :: "rating" :: Y) :=
    List.mem_cons_of_mem _ (List.mem_cons_self _ _)
  have hrating : "rating" ∈ ("submission_id" :: "user" :: "rating" :: Y) :=
    List.mem_cons_of_mem _ (List.mem_cons_of_mem _ (List.mem_cons_self _ _))
  have hclean : cleanOld (DF.mk ("submission_id" :: "user" :: "rating" :: Y)
        ([("submission_id", Cell.i n), ("user", Cell.s u), ("rating", Cell.i v)] :: T))
      (Cell.i n) u
      = ⟨"submission_id" :: "user" :: "rating" :: Y, T⟩ := by
    simp only [cleanOld, DF.select, hvalid]
    rw [if_pos ⟨hsubm, huser⟩]
    congr 1
    rw [List.map_cons]
    have he : restrictRow ("submission_id" :: "user" :: "rating" :: Y)
        [("submission_id", Cell.i n), ("user", Cell.s u), ("rating", Cell.i v)]
        = [("submission_id", Cell.i n), ("user", Cell.s u), ("rating", Cell.i v)] := by
      refine restrictRow_eq_self _ _ ?hmem
      intro p hp
      rcases List.mem_cons.mp hp with h1 | hp2
      · subst h1; exact hsubm
      rcases List.mem_cons.mp hp2 with h1 | hp3
      · subst h1; exact huser
      rcases List.mem_cons.mp hp3 with h1 | hp4
      · subst h1; exact hrating
      · simp at hp4
    rw [he]
    have hmapT : T.map (restrictRow ("submission_id" :: "user" :: "rating" :: Y)) = T := by
      have := List.map_congr_left (l := T)
        (f := restrictRow ("submission_id" :: "user" :: "rating" :: Y)) (g := id)
        (fun r hr => (hT r hr).2)
      rw [this, List.map_id]
    rw [hmapT]
    rw [List.filter_cons_of_neg (by simp [rowMatchesKey_ratingRow_self])]
    exact List.filter_eq_self.mpr (fun r hr => by simp [(hT r hr).1])
  rw [hclean]
  have hfilter : ("submission_id" :: "user" :: "rating" :: Y).filter
      (fun c => decide (c ∉ (mkRatingEntry (Cell.i n) u v).cols)) = Y := by
    rw [mkRatingEntry_cols]
    rw [List.filter_cons_of_neg (by decide), List.filter_cons_of_neg (by decide),
      List.filter_cons_of_neg (by decide)]
    exact List.filter_eq_self.mpr (fun c hc => by simpa using hY c hc)
  unfold DF.concat
  rw [hfilter, mkRatingEntry_cols, mkRatingEntry_rows]
  rfl

/-- Claim C4, counterexample: saving the same sentinel-keyed rating twice in a
row does not yield the same table as saving it once — the second save fails to
supersede the first, so the rows accumulate. -/
theorem claim_C4_counterexample :
    safe_save_to_sheet
        (safe_save_to_sheet emptyDF (mkRatingEntry (Cell.s "Unknown") "alice" 7)
          (Cell.s "Unknown") "alice")
        (mkRatingEntry (Cell.s "Unknown") "alice" 7) (Cell.s "Unknown") "alice"
      ≠ safe_save_to_sheet emptyDF (mkRatingEntry (Cell.s "Unknown") "alice" 7)
          (Cell.s "Unknown") "alice" := by decide

/-- Claim C4 as amended: the upsert is idempotent whenever the submission
identifier is a genuine integer row id (so that the new row actually carries
the `(submission_id, user)` key being saved, as the rating loop guarantees):
saving the same rating entry twice in succession yields exactly the table of
the first save.  Only the sentinel "Unknown" case (see C9) escapes this. -/
theorem claim_C4_idempotent (cur : DF) (n : Int) (u : String) (v : Int) :
    safe_save_to_sheet
        (safe_save_to_sheet cur (mkRatingEntry (Cell.i n) u v) (Cell.i n) u)
        (mkRatingEntry (Cell.i n) u v) (Cell.i n) u
      = safe_save_to_sheet cur (mkRatingEntry (Cell.i n) u v) (Cell.i n) u := by
  by_cases hc : cur.isEmpty = true
  · rw [safe_save_eq_of_empty _ _ _ _ hc]
    exact save_absorb _ _ n u v [] [] rfl (by simp)
      (mkRatingEntry_cols_allowed (Cell.i n) u v) (mkRatingEntry_rows n u v) (by simp)
  · have hc2 : cur.isEmpty = false := by
      cases h : cur.isEmpty
      · rfl
      · exact absurd h hc
    rw [safe_save_eq_of_nonempty _ _ _ _ hc2]
    have hcols : (DF.concat (mkRatingEntry (Cell.i n) u v)
        (cleanOld cur (Cell.i n) u)).cols
        = "submission_id" :: "user" :: "rating"
          :: (validOf cur).filter
            (fun c => decide (c ∉ (mkRatingEntry (Cell.i n) u v).cols)) := by
      rw [concat_cols, cleanOld_cols, mkRatingEntry_cols]
      rfl
    have hrows : (DF.concat (mkRatingEntry (Cell.i n) u v)
        (cleanOld cur (Cell.i n) u)).rows
        = [("submission_id", Cell.i n), ("user", Cell.s u), ("rating", Cell.i v)]
          :: (cleanOld cur (Cell.i n) u).rows := by
      rw [concat_rows, mkRatingEntry_rows]
      rfl
    have hYdisj : ∀ c ∈ (validOf cur).filter
        (fun c => decide (c ∉ (mkRatingEntry (Cell.i n) u v).cols)),
        c ∉ (["submission_id", "user", "rating"] : List String) := by
      intro c hcmem
      have h2 := (List.mem_filter.mp hcmem).2
      rw [mkRatingEntry_cols] at h2
      simpa using h2
    have hsubY : ∀ c ∈ (validOf cur).filter
        (fun c => decide (c ∉ (mkRatingEntry (Cell.i n) u v).cols)),
        c ∈ validOf cur :=
      fun c hcmem => (List.mem_filter.mp hcmem).1
    have hdf : DF.concat (mkRatingEntry (Cell.i n) u v) (cleanOld cur (Cell.i n) u)
        = DF.mk ("submission_id" :: "user" :: "rating"
            :: (validOf cur).filter
              (fun c => decide (c ∉ (mkRatingEntry (Cell.i n) u v).cols)))
          ([("submission_id", Cell.i n), ("user", Cell.s u), ("rating", Cell.i v)]
            :: (cleanOld cur (Cell.i n) u).rows) := by
      rw [← hcols, ← hrows]
    rw [hdf]
    refine save_absorb _ _ n u v _ _ rfl hYdisj ?hA rfl ?hT
    · intro c hcmem
      rcases List.mem_cons.mp hcmem with h | hcmem
      · subst h; decide
      rcases List.mem_cons.mp hcmem with h | hcmem
      · subst h; decide
      rcases List.mem_cons.mp hcmem with h | hcmem
      · subst h; decide
      · exact validOf_sub_allowed cur c (hsubY c hcmem)
    · intro r hr
      refine ⟨cleanOld_not_match cur (Cell.i n) u (pyStr_int_ne_nan n) r hr, ?hres⟩
      refine restrictRow_eq_self _ _ ?hkeys
      intro p hp
      have hpv : p.1 ∈ validOf cur := cleanOld_entry_keys cur (Cell.i n) u r hr p hp
      by_cases hp1 : p.1 ∈ (["submission_id", "user", "rating"] : List String)
      · rcases List.mem_cons.mp hp1 with h | hp1
        · rw [h]; exact List.mem_cons_self _ _
        rcases List.mem_cons.mp hp1 with h | hp1
        · rw [h]; exact List.mem_cons_of_mem _ (List.mem_cons_self _ _)
        rcases List.mem_cons.mp hp1 with h | hp1
        · rw [h]
          exact List.mem_cons_of_mem _ (List.mem_cons_of_mem _ (List.mem_cons_self _ _))
        · simp at hp1
      · refine List.mem_cons_of_mem _ (List.mem_cons_of_mem _ (List.mem_cons_of_mem _ ?hz))
        refine List.mem_filter.mpr ⟨hpv, ?hdec⟩
        rw [mkRatingEntry_cols]
        simpa using hp1

/-! ### Claim C5 -/

theorem save_intRating_rows (cur : DF) (n : Int) (u : String) (v : Int)
    (sub : Cell) (u2 : String) :
    ∃ t, (safe_save_to_sheet cur (mkRatingEntry (Cell.i n) u v) sub u2).rows
      = [("submission_id", Cell.i n), ("user", Cell.s u), ("rating", Cell.i v)] :: t
      ∧ ∀ r ∈ t, r ∈ (cleanOld cur sub u2).rows := by
  unfold safe_save_to_sheet
  split
  · exact ⟨[], mkRatingEntry_rows n u v, by simp⟩
  · refine ⟨(cleanOld cur sub u2).rows, ?h1, fun r hr => hr⟩
    rw [concat_rows, mkRatingEntry_rows]
    rfl

theorem save_intRating_cols (cur : DF) (n : Int) (u : String) (v : Int)
    (sub : Cell) (u2 : String) :
    ∃ t, (safe_save_to_sheet cur (mkRatingEntry (Cell.i n) u v) sub u2).cols
      = "submission_id" :: "user" :: "rating" :: t := by
  unfold safe_save_to_sheet
  split
  · exact ⟨[], rfl⟩
  · exact ⟨_, rfl⟩

/-- Claim C5: after annotator `u` saves the integer rating `v` for the integer
submission identifier `n`, reading the rating back from the written table
returns `some v` for `u`; and for any other annotator `y` who has no matching
row in the read table, it returns `none`. -/
theorem claim_C5_round_trip (cur : DF) (n : Int) (u y : String) (v : Int) :
    get_saved_rating
        (some (safe_save_to_sheet cur (mkRatingEntry (Cell.i n) u v) (Cell.i n) u))
        (Cell.i n) u = some v
    ∧ (y ≠ u →
        (∀ r ∈ cur.rows, rowMatchesKey r (Cell.i n) y = false) →
        get_saved_rating
          (some (safe_save_to_sheet cur (mkRatingEntry (Cell.i n) u v) (Cell.i n) u))
          (Cell.i n) y = none) := by
  obtain ⟨t, hro, hmem⟩ := save_intRating_rows cur n u v (Cell.i n) u
  obtain ⟨ct, hco⟩ := save_intRating_cols cur n u v (Cell.i n) u
  have hne : (safe_save_to_sheet cur (mkRatingEntry (Cell.i n) u v) (Cell.i n) u).isEmpty
      = false := by
    unfold DF.isEmpty
    rw [hro, hco]
    rfl
  have hs2 : "submission_id" ∈ (safe_save_to_sheet cur (mkRatingEntry (Cell.i n) u v)
      (Cell.i n) u).cols := by
    rw [hco]; exact List.mem_cons_self _ _
  have hu2 : "user" ∈ (safe_save_to_sheet cur (mkRatingEntry (Cell.i n) u v)
      (Cell.i n) u).cols := by
    rw [hco]; exact List.mem_cons_of_mem _ (List.mem_cons_self _ _)
  have hr2 : "rating" ∈ (safe_save_to_sheet cur (mkRatingEntry (Cell.i n) u v)
      (Cell.i n) u).cols := by
    rw [hco]
    exact List.mem_cons_of_mem _ (List.mem_cons_of_mem _ (List.mem_cons_self _ _))
  constructor
  · simp only [get_saved_rating]
    rw [hne]
    rw [if_neg (by simp)]
    rw [if_pos ⟨hs2, hu2⟩]
    rw [hro, List.filter_cons_of_pos (by exact rowMatchesKey_ratingRow_self n u v)]
    show (if "rating" ∈ (safe_save_to_sheet cur (mkRatingEntry (Cell.i n) u v)
        (Cell.i n) u).cols then
          cellToInt (getCell [("submission_id", Cell.i n), ("user", Cell.s u),
            ("rating", Cell.i v)] "rating")
        else none) = some v
    rw [if_pos hr2]
    rfl
  · intro hy hclean
    simp only [get_saved_rating]
    rw [hne]
    rw [if_neg (by simp)]
    rw [if_pos ⟨hs2, hu2⟩]
    have hnil : (safe_save_to_sheet cur (mkRatingEntry (Cell.i n) u v)
        (Cell.i n) u).rows.filter (fun r => rowMatchesKey r (Cell.i n) y) = [] := by
      rw [hro]
      rw [List.filter_cons_of_neg (by simp [rowMatchesKey_ratingRow_other n u y v hy])]
      rw [List.filter_eq_nil_iff]
      intro r hr
      rcases mem_cleanOld_rows cur (Cell.i n) u r (hmem r hr) with ⟨r0, hr0, heq⟩
      subst heq
      intro hmatch
      have := rowMatchesKey_restrict _ _ _ _ (pyStr_int_ne_nan n) hmatch
      rw [hclean r0 hr0] at this
      exact Bool.false_ne_true this
    rw [hnil]

/-- Witness for claim C5 at a concrete instance: "alice" saves rating 7 for
submission 5 into an empty table; she reads back 7 and "bob" reads back none. -/
theorem claim_C5_witness :
    get_saved_rating
        (some (safe_save_to_sheet emptyDF (mkRatingEntry (Cell.i 5) "alice" 7)
          (Cell.i 5) "alice")) (Cell.i 5) "alice" = some 7
    ∧ get_saved_rating
        (some (safe_save_to_sheet emptyDF (mkRatingEntry (Cell.i 5) "alice" 7)
          (Cell.i 5) "alice")) (Cell.i 5) "bob" = none :=
  ⟨(claim_C5_round_trip emptyDF 5 "alice" "bob" 7).1,
   (claim_C5_round_trip emptyDF 5 "alice" "bob" 7).2 (by decide) (by simp [emptyDF])⟩

/-! ### Claim C2 -/

/-- Claim C2: `safe_save_to_sheet` implements the spec upsert contract. For
every key value whose string form is not "nan" (every value the program can
pass: integer row ids and the sentinel "Unknown"), the written table equals
the spec reading: the single new row on an empty or absent read table, and
otherwise the new row stacked on the allow-listed remaining rows that do not
match the `(submission_id, user)` key, written back wholesale. -/
theorem claim_C2_upsert_contract (cur new : DF) (sub : Cell) (u : String)
    (hnan : pyStr sub ≠ "nan") :
    safe_save_to_sheet cur new sub u = upsert_spec cur new sub u := by
  unfold safe_save_to_sheet upsert_spec
  split
  · rfl
  · congr 1
    simp only [cleanOld, DF.select]
    split
    · rfl
    · rename_i hcond
      congr 1
      symm
      refine List.filter_eq_self.mpr (fun r hr => ?hq)
      rcases List.mem_map.mp hr with ⟨r0, _, heq⟩
      subst heq
      simp [rowMatchesKey_restrict_missing _ _ _ _ hnan (not_and_or.mp hcond)]

/-- Witness for claim C2 at a concrete instance: an integer key value, a
one-row read table of another annotator, and the rating entry of the loop. -/
theorem claim_C2_witness :
    pyStr (Cell.i 5) ≠ "nan"
    ∧ safe_save_to_sheet
        ⟨["submission_id", "user", "rating"],
          [[("submission_id", Cell.i 5), ("user", Cell.s "bob"), ("rating", Cell.i 3)]]⟩
        (mkRatingEntry (Cell.i 5) "alice" 7) (Cell.i 5) "alice"
      = upsert_spec
        ⟨["submission_id", "user", "rating"],
          [[("submission_id", Cell.i 5), ("user", Cell.s "bob"), ("rating", Cell.i 3)]]⟩
        (mkRatingEntry (Cell.i 5) "alice" 7) (Cell.i 5) "alice" :=
  ⟨by decide,
   claim_C2_upsert_contract _ _ (Cell.i 5) "alice" (by decide)⟩

/-! ### Claim C3 -/

theorem rowMatchesKey_eq_bothStr_and_isStr (r : Row) (sub : Cell) (u : String) :
    rowMatchesKey r sub u
      = (rowMatchesKeyBothStr r sub u && (getCell r "user").isStr) := by
  unfold rowMatchesKey rowMatchesKeyBothStr
  cases hgc : getCell r "user" with
  | s w => simp [cellEqStr, Cell.isStr, pyStr]
  | i m => simp [cellEqStr, Cell.isStr]
  | nan => simp [cellEqStr, Cell.isStr]

/-- Claim C3, counterexample: the implementation does not coerce the `user`
column to string.  With a read table holding a numeric `user` cell 5 and the
annotator name "5", the both-sides-string mask of the spec removes the old
row but `safe_save_to_sheet` keeps it, so the two saves differ. -/
theorem claim_C3_counterexample :
    safe_save_to_sheet
        ⟨["submission_id", "user"], [[("submission_id", Cell.i 3), ("user", Cell.i 5)]]⟩
        (mkRatingEntry (Cell.i 3) "5" 7) (Cell.i 3) "5"
      ≠ safe_save_both_str
        ⟨["submission_id", "user"], [[("submission_id", Cell.i 3), ("user", Cell.i 5)]]⟩
        (mkRatingEntry (Cell.i 3) "5" 7) (Cell.i 3) "5" := by decide

/-- Claim C3 as amended: in the non-empty case with both key columns present,
the removal step coerces the `submission_id` column and the key value to
strings, but compares the `user` column to the annotator name without
coercion; this equals the both-sides-string comparison restricted to rows
whose `user` cell is actually a string. -/
theorem claim_C3_mask (cur new : DF) (sub : Cell) (u : String)
    (h1 : cur.isEmpty = false)
    (h2 : "submission_id" ∈ validOf cur ∧ "user" ∈ validOf cur) :
    safe_save_to_sheet cur new sub u
      = DF.concat new
          ⟨validOf cur,
            (cur.rows.map (restrictRow (validOf cur))).filter
              (fun r => !(rowMatchesKeyBothStr r sub u && (getCell r "user").isStr))⟩ := by
  rw [safe_save_eq_of_nonempty _ _ _ _ h1]
  congr 1
  simp only [cleanOld, DF.select]
  rw [if_pos h2]
  congr 1
  refine List.filter_congr (fun r hr => ?hq)
  rw [rowMatchesKey_eq_bothStr_and_isStr]

/-- Witness for claim C3 at a concrete instance: a one-row table with a
string `user` cell. -/
theorem claim_C3_witness :
    safe_save_to_sheet
        ⟨["submission_id", "user"], [[("submission_id", Cell.i 1), ("user", Cell.s "x")]]⟩
        (mkRatingEntry (Cell.i 1) "x" 2) (Cell.i 1) "x"
      = DF.concat (mkRatingEntry (Cell.i 1) "x" 2)
          ⟨validOf ⟨["submission_id", "user"],
              [[("submission_id", Cell.i 1), ("user", Cell.s "x")]]⟩,
            ((⟨["submission_id", "user"],
              [[("submission_id", Cell.i 1), ("user", Cell.s "x")]]⟩ : DF).rows.map
                (restrictRow (validOf ⟨["submission_id", "user"],
                  [[("submission_id", Cell.i 1), ("user", Cell.s "x")]]⟩))).filter
              (fun r => !(rowMatchesKeyBothStr r (Cell.i 1) "x"
                && (getCell r "user").isStr))⟩ :=
  claim_C3_mask _ _ (Cell.i 1) "x" (by decide) (by decide)

/-! ### Claim C7 -/

/-- Claim C7, counterexample: when the fetched table is missing the
`submission_id` column, `safe_save_to_sheet` skips the key-based row removal
(keeping the old row), while the spec behaviour of synthesizing the missing
column as null and always removing would delete it (here the key value
stringifies to "nan", which is what a synthesized null cell compares as). -/
theorem claim_C7_counterexample :
    safe_save_to_sheet
        ⟨["user", "rating"], [[("user", Cell.s "alice"), ("rating", Cell.i 5)]]⟩
        (mkRatingEntry (Cell.i 3) "alice" 7) (Cell.s "nan") "alice"
      ≠ safe_save_synth
        ⟨["user", "rating"], [[("user", Cell.s "alice"), ("rating", Cell.i 5)]]⟩
        (mkRatingEntry (Cell.i 3) "alice" 7) (Cell.s "nan") "alice" := by decide

/-- Claim C7 as amended: a missing expected column is tolerated, not failed
on: for every key value whose string form is not "nan" (all values the
program passes) and every new entry carrying both key columns, skipping the
removal is observationally equal to the spec behaviour of synthesizing the
missing column as null before use; and the pre-fill lookup on a table missing
a key column returns none rather than failing. -/
theorem claim_C7_missing_column (cur new : DF) (sub : Cell) (u : String)
    (hnan : pyStr sub ≠ "nan")
    (hkeys : "submission_id" ∈ new.cols ∧ "user" ∈ new.cols) :
    safe_save_to_sheet cur new sub u = safe_save_synth cur new sub u
    ∧ ("submission_id" ∉ cur.cols ∨ "user" ∉ cur.cols →
        get_saved_rating (some cur) sub u = none) := by
  constructor
  · unfold safe_save_to_sheet safe_save_synth
    split
    · rfl
    · simp only [cleanOld, DF.select, DF.concat]
      split
      · rename_i hcond
        have hm : (["submission_id", "user"].filter
            (fun c => decide (c ∉ validOf cur))) = [] := by
          rw [List.filter_eq_nil_iff]
          intro c hc
          rcases List.mem_cons.mp hc with h | hc
          · subst h; simp [hcond.1]
          rcases List.mem_cons.mp hc with h | hc
          · subst h; simp [hcond.2]
          · simp at hc
        rw [hm, List.append_nil]
      · rename_i hcond
        have hrows : ((cur.rows.map (restrictRow (validOf cur))).filter
            (fun r => !(rowMatchesKey r sub u)))
            = cur.rows.map (restrictRow (validOf cur)) := by
          refine List.filter_eq_self.mpr (fun r hr => ?hq)
          rcases List.mem_map.mp hr with ⟨r0, _, heq⟩
          subst heq
          simp [rowMatchesKey_restrict_missing _ _ _ _ hnan (not_and_or.mp hcond)]
        rw [hrows]
        have hcols : ((validOf cur ++ ["submission_id", "user"].filter
              (fun c => decide (c ∉ validOf cur))).filter
            (fun c => decide (c ∉ new.cols)))
            = (validOf cur).filter (fun c => decide (c ∉ new.cols)) := by
          rw [List.filter_append]
          have hz : ((["submission_id", "user"].filter
              (fun c => decide (c ∉ validOf cur))).filter
              (fun c => decide (c ∉ new.cols))) = [] := by
            rw [List.filter_eq_nil_iff]
            intro c hc
            have hc2 := (List.mem_filter.mp hc).1
            rcases List.mem_cons.mp hc2 with h | hc2
            · subst h; simp [hkeys.1]
            rcases List.mem_cons.mp hc2 with h | hc2
            · subst h; simp [hkeys.2]
            · simp at hc2
          rw [hz, List.append_nil]
        rw [hcols]
  · intro hmiss
    simp only [get_saved_rating]
    split
    · rfl
    · rw [if_neg (fun hcc => by
        rcases hmiss with h | h
        · exact h hcc.1
        · exact h hcc.2)]

/-- Witness for claim C7 at a concrete instance: a table missing the
`submission_id` column with an integer key value. -/
theorem claim_C7_witness :
    safe_save_to_sheet
        ⟨["user", "rating"], [[("user", Cell.s "alice"), ("rating", Cell.i 5)]]⟩
        (mkRatingEntry (Cell.i 3) "alice" 7) (Cell.i 3) "alice"
      = safe_save_synth
        ⟨["user", "rating"], [[("user", Cell.s "alice"), ("rating", Cell.i 5)]]⟩
        (mkRatingEntry (Cell.i 3) "alice" 7) (Cell.i 3) "alice"
    ∧ get_saved_rating
        (some ⟨["user", "rating"], [[("user", Cell.s "alice"), ("rating", Cell.i 5)]]⟩)
        (Cell.i 3) "alice" = none :=
  ⟨(claim_C7_missing_column _ (mkRatingEntry (Cell.i 3) "alice" 7) (Cell.i 3) "alice"
      (by decide) (by decide)).1,
   (claim_C7_missing_column _ (mkRatingEntry (Cell.i 3) "alice" 7) (Cell.i 3) "alice"
      (by decide) (by decide)).2 (Or.inl (by decide))⟩

/-! ### Claim C6 -/

/-- Claim C6: `get_nemotron_row_id` returns the sentinel "Unknown" exactly
when the master table has no row pairing the sentence with the reference
variant "B", and otherwise returns the ordinal position of the first such row
offset by the fixed header constant 2. -/
theorem claim_C6_row_id (master : List MasterRow) (cur : String) :
    (get_nemotron_row_id master cur = Cell.s "Unknown"
      ↔ ∀ r ∈ master, ¬(r.incorrect = cur ∧ r.id = "B"))
    ∧ (∀ i : Nat, i < master.length →
        (master.getD i ⟨"", "", ""⟩).incorrect = cur →
        (master.getD i ⟨"", "", ""⟩).id = "B" →
        (∀ j : Nat, j < i →
          ¬((master.getD j ⟨"", "", ""⟩).incorrect = cur
            ∧ (master.getD j ⟨"", "", ""⟩).id = "B")) →
        get_nemotron_row_id master cur = Cell.i ((i : Int) + 2)) := by
  have hgetD : ∀ (k : Nat) (hk : k < master.length),
      master.getD k ⟨"", "", ""⟩ = master.get ⟨k, hk⟩ := by
    intro k hk
    rw [List.getD_eq_getElem?_getD, List.getElem?_eq_getElem hk]
    rfl
  unfold get_nemotron_row_id
  cases h : master.findIdx? (fun r => r.incorrect == cur && r.id == "B") with
  | none =>
    have hnone := List.findIdx?_eq_none_iff.mp h
    constructor
    · constructor
      · intro _ r hr hcont
        have hb := hnone r hr
        rw [hcont.1, hcont.2] at hb
        simp at hb
      · intro _
        rfl
    · intro i hlen hinc hid hfirst
      have hmem : master.getD i ⟨"", "", ""⟩ ∈ master := by
        rw [hgetD i hlen]
        exact List.get_mem master _ _
      have hb := hnone _ hmem
      rw [hinc, hid] at hb
      simp at hb
  | some j =>
    rcases List.findIdx?_eq_some_iff_getElem.mp h with ⟨hjlen, hpj, hprev⟩
    have hpj2 : (master.getD j ⟨"", "", ""⟩).incorrect = cur
        ∧ (master.getD j ⟨"", "", ""⟩).id = "B" := by
      rw [hgetD j hjlen]
      simpa using hpj
    constructor
    · constructor
      · intro habs
        exact absurd habs (by simp)
      · intro hall
        exfalso
        refine hall (master.getD j ⟨"", "", ""⟩) ?hm hpj2
        rw [hgetD j hjlen]
        exact List.get_mem master _ _
    · intro i hlen hinc hid hfirst
      have hij : i = j := by
        rcases Nat.lt_trichotomy i j with hlt | heq | hgt
        · exfalso
          have hpi : ((master.get ⟨i, hlen⟩).incorrect == cur
              && (master.get ⟨i, hlen⟩).id == "B") = true := by
            rw [hgetD i hlen] at hinc hid
            rw [hinc, hid]
            simp
          exact (hprev i hlt) hpi
        · exact heq
        · exfalso
          exact hfirst j hgt hpj2
      subst hij
      rfl

/-- Witness for claim C6 at concrete master tables: the reference row of
sentence "x" sits at position 1, so the derived id is 3; a table without a
"B" row yields the sentinel. -/
theorem claim_C6_witness :
    get_nemotron_row_id [⟨"x", "A", "ca"⟩, ⟨"x", "B", "cb"⟩] "x" = Cell.i 3
    ∧ get_nemotron_row_id [⟨"x", "A", "ca"⟩] "x" = Cell.s "Unknown" := by
  constructor
  · have h := (claim_C6_row_id [⟨"x", "A", "ca"⟩, ⟨"x", "B", "cb"⟩] "x").2 1
      (by decide) (by decide) (by decide)
      (fun j hj => by
        rw [Nat.lt_one_iff] at hj
        subst hj
        decide)
    norm_num at h
    exact h
  · exact (claim_C6_row_id [⟨"x", "A", "ca"⟩] "x").1.mpr (by decide)

/-! ### Claim C8 -/

/-- Claim C8: when every matching row of the table has a rating cell that
cannot be converted to an integer, `get_saved_rating` returns none (no prior
rating) rather than an error; and `get_saved_correction` returns the empty
string when its conversion step fails (the `user_corrected` column access
raising KeyError). -/
theorem claim_C8_coercion_failure (df : DF) (sub : Cell) (u : String) :
    ((∀ r ∈ df.rows, rowMatchesKey r sub u = true → cellToInt (getCell r "rating") = none) →
      get_saved_rating (some df) sub u = none)
    ∧ ("user_corrected" ∉ df.cols → get_saved_correction (some df) sub u = "") := by
  constructor
  · intro h
    simp only [get_saved_rating]
    split
    · rfl
    · split
      · cases hf : df.rows.filter (fun r => rowMatchesKey r sub u) with
        | nil => rfl
        | cons r rest =>
          have hm : r ∈ df.rows.filter (fun r => rowMatchesKey r sub u) := by
            rw [hf]
            exact List.mem_cons_self _ _
          show (if "rating" ∈ df.cols then cellToInt (getCell r "rating") else none) = none
          rw [h r (List.mem_filter.mp hm).1 (List.mem_filter.mp hm).2]
          simp
      · rfl
  · intro h
    simp only [get_saved_correction]
    by_cases he : df.isEmpty = true
    · rw [if_pos he]
    · rw [if_neg he]
      by_cases hcols : "submission_id" ∈ df.cols ∧ "user" ∈ df.cols
      · rw [if_pos hcols]
        cases hf : df.rows.filter (fun r => rowMatchesKey r sub u) with
        | nil => rfl
        | cons r rest =>
          show (if "user_corrected" ∈ df.cols
              then pyStr (getCell r "user_corrected") else "") = ""
          exact if_neg h
      · rw [if_neg hcols]

/-- Witness for claim C8 at a concrete instance: a matching row whose rating
cell is the non-numeric string "bad", in a table with no `user_corrected`
column. -/
theorem claim_C8_witness :
    get_saved_rating
        (some ⟨["submission_id", "user", "rating"],
          [[("submission_id", Cell.i 1), ("user", Cell.s "alice"),
            ("rating", Cell.s "bad")]]⟩) (Cell.i 1) "alice" = none
    ∧ get_saved_correction
        (some ⟨["submission_id", "user", "rating"],
          [[("submission_id", Cell.i 1), ("user", Cell.s "alice"),
            ("rating", Cell.s "bad")]]⟩) (Cell.i 1) "alice" = "" :=
  ⟨(claim_C8_coercion_failure _ (Cell.i 1) "alice").1 (by decide),
   (claim_C8_coercion_failure _ (Cell.i 1) "alice").2 (by decide)⟩

/-! ### Claim C10 -/

theorem save_step_foldl_trace (sel : String → Option Int) (nem : Cell) (u : String) :
    ∀ (ids : List String) (st : String → DF) (l : List String),
      (ids.foldl (save_step sel nem u) (st, l)).2
        = l ++ ids.filter (fun m => (sel m).isSome) := by
  intro ids
  induction ids with
  | nil => intro st l; simp
  | cons m ids ih =>
    intro st l
    rw [List.foldl_cons, List.filter_cons]
    cases hm : sel m with
    | none =>
      simp only [save_step, hm]
      rw [ih st l]
      simp [hm]
    | some v =>
      simp only [save_step, hm]
      rw [ih _ (l ++ [m])]
      simp [hm]

theorem save_step_foldl_frame (sel : String → Option Int) (nem : Cell) (u : String) :
    ∀ (ids : List String) (st : String → DF) (l : List String) (k : String),
      (sel k = none ∨ k ∉ ids) →
      (ids.foldl (save_step sel nem u) (st, l)).1 k = st k := by
  intro ids
  induction ids with
  | nil => intro st l k _; rfl
  | cons m ids ih =>
    intro st l k hk
    rw [List.foldl_cons]
    have hk2 : sel k = none ∨ k ∉ ids := by
      rcases hk with h | h
      · exact Or.inl h
      · exact Or.inr (fun hmem => h (List.mem_cons_of_mem _ hmem))
    rw [ih _ _ k hk2]
    cases hm : sel m with
    | none => simp [save_step, hm]
    | some v =>
      simp only [save_step, hm]
      have hkm : k ≠ m := by
        intro he
        subst he
        rcases hk with h | h
        · rw [h] at hm
          exact Option.noConfusion hm
        · exact h (List.mem_cons_self _ _)
      simp [hkm]

/-- Claim C10: pressing Save touches (reads and rewrites) exactly the sheets
of the variants with a selected rating, plus the corrections sheet when the
manual fix text is non-empty; every variant sheet with no selected rating is
left unchanged, and with an empty manual fix so is the corrections sheet. -/
theorem claim_C10_save_frame (store : String → DF) (sel : String → Option Int)
    (fix : String) (nem : Cell) (u : String) :
    ((save_button_handler store sel fix nem u).2
      = model_ids.filter (fun m => (sel m).isSome)
        ++ (if fix = "" then [] else ["corrections"]))
    ∧ (∀ m ∈ model_ids, sel m = none →
        (save_button_handler store sel fix nem u).1 m = store m)
    ∧ (fix = "" →
        (save_button_handler store sel fix nem u).1 "corrections"
          = store "corrections") := by
  by_cases hfix : fix = ""
  · simp only [save_button_handler, if_pos hfix]
    refine ⟨?h1, ?h2, ?h3⟩
    · rw [save_step_foldl_trace]
      simp [hfix]
    · intro m _ hm
      exact save_step_foldl_frame sel nem u model_ids store [] m (Or.inl hm)
    · intro _
      exact save_step_foldl_frame sel nem u model_ids store [] "corrections"
        (Or.inr (by decide))
  · simp only [save_button_handler]
    rw [if_neg hfix]
    refine ⟨?g1, ?g2, ?g3⟩
    · rw [save_step_foldl_trace]
      simp [hfix]
    · intro m hmem hm
      have hmc : m ≠ "corrections" := by
        intro he
        subst he
        revert hmem
        decide
      simp only [if_neg hmc]
      exact save_step_foldl_frame sel nem u model_ids store [] m (Or.inl hm)
    · intro hc
      exact absurd hc hfix

/-- Witness for claim C10 at a concrete instance: only variant "A" is rated
and the manual fix is empty, so only sheet "A" is touched while "B" and the
corrections sheet keep their tables. -/
theorem claim_C10_witness :
    (save_button_handler (fun _ => emptyDF)
        (fun m => if m = "A" then some 7 else none) "" (Cell.i 5) "alice").2 = ["A"]
    ∧ (save_button_handler (fun _ => emptyDF)
        (fun m => if m = "A" then some 7 else none) "" (Cell.i 5) "alice").1 "B"
      = (fun _ => emptyDF) "B"
    ∧ (save_button_handler (fun _ => emptyDF)
        (fun m => if m = "A" then some 7 else none) "" (Cell.i 5) "alice").1 "corrections"
      = (fun _ => emptyDF) "corrections" := by
  refine ⟨?h1, ?h2, ?h3⟩
  · rw [(claim_C10_save_frame (fun _ => emptyDF)
      (fun m => if m = "A" then some 7 else none) "" (Cell.i 5) "alice").1]
    decide
  · exact (claim_C10_save_frame (fun _ => emptyDF)
      (fun m => if m = "A" then some 7 else none) "" (Cell.i 5) "alice").2.1 "B"
      (by decide) rfl
  · exact (claim_C10_save_frame (fun _ => emptyDF)
      (fun m => if m = "A" then some 7 else none) "" (Cell.i 5) "alice").2.2 rfl

end RaterApp
